import Mathlib

/-!
Shallow embedding of `src/NAS_watcher/NAS_watcher.ino` (Arduino sketch for a
serial-driven status indicator: RGB LED + TM1637 4-digit display).

Modelling choices:
- A protocol line is a `List Char` (the bytes accumulated up to a newline).
- Arduino `String::toInt` calls avr-libc `atol`; we model it as `atol` below:
  skip leading whitespace, then an optional single sign character, then the
  longest leading run of decimal digits (empty run parses to 0). The `long`
  it returns is assigned to the 16-bit `int level` at source line 140 on the
  AVR target, so the level the program stores and displays is the
  two's-complement 16-bit truncation `wrap16` of the parsed value (wrapping
  of the 32-bit `long` inside `atol` is absorbed by the 16-bit truncation,
  because 2^16 divides 2^32, so one `wrap16` at the assignment is exact).
- Side effects on the peripherals (analogWrite triples, TM1637 calls, delay,
  Serial.println) are recorded as a list of `Effect` values in program order.
- The dispatch on a completed line (the body of `loop` after a newline is
  seen, source lines 132-163) is split into `parseLine` (classification of
  the line, mirroring the nested `indexOf`/`startsWith` checks) and
  `applyCommand` (the state mutations and peripheral calls of each branch);
  `processLine` is their composition and is extensionally the source branch.
-/

/-- Alert level constant `LEVEL_NORMAL = 1` (green). -/
def LEVEL_NORMAL : Int := 1

/-- Alert level constant `LEVEL_NOTICE = 2` (yellow/orange). -/
def LEVEL_NOTICE : Int := 2

/-- Alert level constant `LEVEL_ALERT = 3` (red). -/
def LEVEL_ALERT : Int := 3

/-- Alert level constant `LEVEL_OFF = 999` (dark). -/
def LEVEL_OFF : Int := 999

/-- `MAX_BRIGHTNESS = 8`, the reduced-brightness cap declared in
`updateAlertLed`. -/
def MAX_BRIGHTNESS : Int := 8

/-- C `isdigit` on a character: code point between 48 (`0`) and 57 (`9`). -/
def isDigitChar (c : Char) : Bool := 48 ≤ c.toNat && c.toNat ≤ 57

/-- C `isspace` on a character: space (32) or one of HT, LF, VT, FF, CR
(code points 9-13). Used by `atol` to skip leading whitespace. -/
def atolIsSpace (c : Char) : Bool := c.toNat = 32 || (9 ≤ c.toNat && c.toNat ≤ 13)

/-- The digit-accumulation loop of `atol`: consume the longest leading run of
decimal digits, folding them onto `acc`; stop at the first non-digit. -/
def parseDigits : List Char → Nat → Nat
  | [], acc => acc
  | c :: cs, acc =>
    if isDigitChar c then parseDigits cs (acc * 10 + (c.toNat - 48)) else acc

/-- The sign-and-digits stage of `atol`, applied after whitespace skipping:
one optional sign character, then the leading digit run (negated under a
minus sign); no digits parses to 0. -/
def atolSigned : List Char → Int
  | [] => 0
  | c :: rest =>
    if c = '-' then -(parseDigits rest 0 : Int)
    else if c = '+' then (parseDigits rest 0 : Int)
    else (parseDigits (c :: rest) 0 : Int)

/-- avr-libc `atol`, the function behind Arduino `String::toInt` (source line
140 `levelString.toInt()`): skip leading whitespace, consume one optional
sign, then the leading digit run; a line with no digits parses to 0. -/
def atol (cs : List Char) : Int := atolSigned (cs.dropWhile atolIsSpace)

/-- Two's-complement truncation to a 16-bit `int`, as performed by the
assignment `int level = levelString.toInt();` at source line 140 (the `long`
returned by `toInt` is narrowed to the AVR's 16-bit `int`, which is also the
type of the global `currentAlertLevel`). -/
def wrap16 (x : Int) : Int := (x + 32768) % 65536 - 32768

/-- Removal of at most one leading sign character. -/
def signSkip : List Char → List Char
  | [] => []
  | c :: rest => if c = '-' then rest else if c = '+' then rest else c :: rest

/-- The suffix of the input that `atol` hands to its digit loop: whitespace
skipped and at most one leading sign character removed. -/
def afterSignSkip (cs : List Char) : List Char := signSkip (cs.dropWhile atolIsSpace)

/-- Whether a character list begins with a decimal digit. -/
def beginsWithDigit (cs : List Char) : Bool :=
  match cs with
  | [] => false
  | c :: _ => isDigitChar c

/-- `String::indexOf('_')` followed by the two `substring` calls (source
lines 133-137): `some (before, after)` splits at the first `'_'` when one is
present, `none` otherwise. -/
def splitAtSep : List Char → Option (List Char × List Char)
  | [] => none
  | c :: cs =>
    if c = '_' then some ([], cs)
    else
      match splitAtSep cs with
      | some (a, b) => some (c :: a, b)
      | none => none

/-- The command variants a completed line is classified into (spec §3). -/
inductive Command where
  | levelUpdate (level : Int) (date : Option (List Char))
  | clearCommand
  | unrecognized
deriving DecidableEq, Repr

/-- The date-payload check on the part after the separator (source lines
144-147): present exactly when it starts with `D` or `d`, and then the
payload is everything after that letter (`dateData.substring(1)`). -/
def dateOfDatePart : List Char → Option (List Char)
  | 'D' :: rest => some rest
  | 'd' :: rest => some rest
  | _ => none

/-- Classification of a completed line, mirroring the branch structure of
`loop` (source lines 132-163): a line containing `'_'` is a level update
whose level is `toInt` of the part before the first `'_'` narrowed to the
16-bit `int level` (line 140), and whose date payload is given by
`dateOfDatePart` on the part after; otherwise an `OFF`/`off` prefix means
clear; otherwise the line is unrecognized. -/
def parseLine (line : List Char) : Command :=
  match splitAtSep line with
  | some (levelString, dateData) =>
    Command.levelUpdate (wrap16 (atol levelString)) (dateOfDatePart dateData)
  | none =>
    if ['O', 'F', 'F'].isPrefixOf line || ['o', 'f', 'f'].isPrefixOf line then
      Command.clearCommand
    else
      Command.unrecognized

/-- The two globals mutated by `loop`: `currentAlertLevel` (initialized to
`LEVEL_OFF`) and `currentDateMMDD` (initialized to `"0000"`). -/
structure DeviceState where
  currentAlertLevel : Int
  currentDateMMDD : List Char
deriving DecidableEq, Repr

/-- The device state at reset. -/
def initState : DeviceState := ⟨LEVEL_OFF, ['0', '0', '0', '0']⟩

/-- Peripheral side effects, recorded in program order. -/
inductive Effect where
  | setColor (r g b : Int)
  | showNumberDec (num : Int) (leadingZero : Bool) (len : Nat) (pos : Nat)
  | delayMs (ms : Nat)
  | setSegments (digits : List Int)
  | displayClear
  | serialPrintln (msg : String)
deriving DecidableEq, Repr

/-- The `(r, g, b)` triple computed by `updateAlertLed` (source lines 44-79)
before it is handed to `setLedColor`: Normal is dim green capped at
`MAX_BRIGHTNESS`, Notice is full red plus medium green, Alert is full red,
and `LEVEL_OFF` or any unrecognized value is dark. -/
def updateAlertLed (level : Int) : Int × Int × Int :=
  if level = LEVEL_NORMAL then (0, MAX_BRIGHTNESS, 0)
  else if level = LEVEL_NOTICE then (255, 100, 0)
  else if level = LEVEL_ALERT then (255, 0, 0)
  else (0, 0, 0)

/-- The four digit values `displayDate` encodes: `mmdd.substring(k, k+1)
.toInt()` for k = 0..3, i.e. `atol` of each single-character substring. -/
def dateDigits (mmdd : List Char) : List Int :=
  [atol (mmdd.take 1), atol ((mmdd.drop 1).take 1),
   atol ((mmdd.drop 2).take 1), atol ((mmdd.drop 3).take 1)]

/-- `displayDate` (source lines 82-98): a string shorter than 4 characters
returns without touching the display; otherwise the first four characters
are encoded digit by digit and written with `setSegments`. -/
def displayDate (mmdd : List Char) : List Effect :=
  if mmdd.length < 4 then [] else [Effect.setSegments (dateDigits mmdd)]

/-- The diagnostic printed on an unrecognized line (source line 162). -/
def diagnosticMessage : String :=
  "Received unexpected single level data after integration."

/-- Right-aligned 4-digit leading-zero decimal rendering performed by the
TM1637 driver for `showNumberDec(n, true, 4, 0)` on a nonnegative level. -/
def showNumberDecDigits (n : Nat) : List Int :=
  [(n / 1000 % 10 : Nat), (n / 100 % 10 : Nat), (n / 10 % 10 : Nat), (n % 10 : Nat)]

/-- The effect of one parsed command on the device state and peripherals
(the three branches of `loop` at source lines 138-163, in program order).
A level update stores the level, lights the LED, stores the date payload
when present, shows the level for a 1500 ms dwell, then renders the stored
date; a clear blanks the display and darkens the LED without touching the
stored state; an unrecognized line only prints a diagnostic. -/
def applyCommand (st : DeviceState) : Command → DeviceState × List Effect
  | Command.levelUpdate level date =>
    let st1 : DeviceState := { st with currentAlertLevel := level }
    let st2 : DeviceState :=
      match date with
      | some d => { st1 with currentDateMMDD := d }
      | none => st1
    (st2,
      Effect.setColor (updateAlertLed level).1 (updateAlertLed level).2.1
          (updateAlertLed level).2.2
        :: Effect.showNumberDec level true 4 0
        :: Effect.delayMs 1500
        :: displayDate st2.currentDateMMDD)
  | Command.clearCommand =>
    (st,
      [Effect.displayClear,
       Effect.setColor (updateAlertLed LEVEL_OFF).1 (updateAlertLed LEVEL_OFF).2.1
         (updateAlertLed LEVEL_OFF).2.2])
  | Command.unrecognized =>
    (st, [Effect.serialPrintln diagnosticMessage])

/-- Processing of one completed line by `loop`: classify, then apply. -/
def processLine (st : DeviceState) (line : List Char) : DeviceState × List Effect :=
  applyCommand st (parseLine line)

/-- The effects emitted after the 1500 ms dwell: everything after the first
`delayMs` in a trace. -/
def postDwellRender : List Effect → List Effect
  | [] => []
  | Effect.delayMs _ :: rest => rest
  | _ :: rest => postDwellRender rest

/-- Most-significant-first decimal digit characters of a natural number,
with an explicit recursion bound (`fuel`) so the definition is structural. -/
def natDigitsAux : Nat → Nat → List Char
  | 0, _ => []
  | fuel + 1, n =>
    if n < 10 then [Char.ofNat (48 + n)]
    else natDigitsAux fuel (n / 10) ++ [Char.ofNat (48 + n % 10)]

/-- Most-significant-first decimal digit characters of a natural number. -/
def natDigits (n : Nat) : List Char := natDigitsAux (n + 1) n

/-- The decimal rendering of an integer: a minus sign followed by the digits
of the magnitude when negative, the bare digits otherwise. -/
def renderInt (l : Int) : List Char :=
  if l < 0 then '-' :: natDigits (-l).toNat else natDigits l.toNat

/-- A code point in the digit range stays itself under `Char.ofNat`. -/
theorem toNat_char_digit (d : Nat) (h : d < 10) :
    (Char.ofNat (48 + d)).toNat = 48 + d := by
  interval_cases d <;> decide

/-- Characters built from digit code points satisfy `isDigitChar`. -/
theorem isDigitChar_char_digit (d : Nat) (h : d < 10) :
    isDigitChar (Char.ofNat (48 + d)) = true := by
  simp [isDigitChar, toNat_char_digit d h]
  omega

/-- Every character produced by `natDigitsAux` is a decimal digit. -/
theorem natDigitsAux_digits (fuel : Nat) :
    ∀ n, ∀ c ∈ natDigitsAux fuel n, isDigitChar c = true := by
  induction fuel with
  | zero => intro n c hc; simp [natDigitsAux] at hc
  | succ fuel ih =>
    intro n c hc
    by_cases h : n < 10
    · simp [natDigitsAux, h] at hc
      subst hc; exact isDigitChar_char_digit n h
    · simp [natDigitsAux, h] at hc
      rcases hc with hc | hc
      · exact ih _ c hc
      · subst hc; exact isDigitChar_char_digit (n % 10) (Nat.mod_lt _ (by omega))

/-- Every character produced by `natDigits` is a decimal digit. -/
theorem natDigits_digits (n : Nat) : ∀ c ∈ natDigits n, isDigitChar c = true :=
  natDigitsAux_digits (n + 1) n

/-- `parseDigits` processes an all-digit prefix completely before the rest. -/
theorem parseDigits_append (xs : List Char) (h : ∀ c ∈ xs, isDigitChar c = true) :
    ∀ ys acc, parseDigits (xs ++ ys) acc = parseDigits ys (parseDigits xs acc) := by
  induction xs with
  | nil => intro ys acc; simp [parseDigits]
  | cons c cs ih =>
    intro ys acc
    have hc : isDigitChar c = true := h c (by simp)
    simp only [List.cons_append, parseDigits, hc, if_true]
    exact ih (fun c hc => h c (by simp [hc])) ys _

/-- Value of the digit loop on the rendering of `n`, for sufficient fuel. -/
theorem parseDigits_natDigitsAux (fuel : Nat) :
    ∀ n acc, n < 10 ^ fuel →
      parseDigits (natDigitsAux fuel n) acc
        = acc * 10 ^ (natDigitsAux fuel n).length + n := by
  induction fuel with
  | zero =>
    intro n acc h
    simp only [pow_zero, Nat.lt_one_iff] at h
    simp [natDigitsAux, parseDigits, h]
  | succ fuel ih =>
    intro n acc h
    by_cases h10 : n < 10
    · simp [natDigitsAux, h10, parseDigits, isDigitChar_char_digit n h10,
        toNat_char_digit n h10]
    · have hdiv : n / 10 < 10 ^ fuel := by
        rw [Nat.div_lt_iff_lt_mul (by omega)]
        calc n < 10 ^ (fuel + 1) := h
          _ = 10 ^ fuel * 10 := by ring
      have hm : n % 10 < 10 := Nat.mod_lt _ (by omega)
      have hdm : n / 10 * 10 + n % 10 = n := by omega
      simp only [natDigitsAux, if_neg h10]
      rw [parseDigits_append _ (natDigitsAux_digits fuel (n / 10))]
      rw [ih _ acc hdiv]
      simp only [parseDigits, isDigitChar_char_digit _ hm, toNat_char_digit _ hm,
        if_true, List.length_append, List.length_cons, List.length_nil, Nat.zero_add]
      rw [pow_succ, ← mul_assoc]
      omega

/-- The digit loop inverts the decimal rendering of a natural number. -/
theorem parseDigits_natDigits (n : Nat) : parseDigits (natDigits n) 0 = n := by
  have h : n < 10 ^ (n + 1) := by
    calc n < 10 ^ n := Nat.lt_pow_self (by omega) n
      _ ≤ 10 ^ (n + 1) := Nat.pow_le_pow_right (by omega) (by omega)
  simpa [natDigits] using parseDigits_natDigitsAux (n + 1) n 0 h

/-- `natDigits` never returns the empty list. -/
theorem natDigits_ne_nil (n : Nat) : natDigits n ≠ [] := by
  unfold natDigits natDigitsAux
  by_cases h : n < 10 <;> simp [h]

/-- `atol` inverts the decimal rendering of a natural number. -/
theorem atol_natDigits (n : Nat) : atol (natDigits n) = n := by
  obtain ⟨c, cs, hcons⟩ := List.exists_cons_of_ne_nil (natDigits_ne_nil n)
  have hc : isDigitChar c = true := natDigits_digits n c (by rw [hcons]; simp)
  have hcn : 48 ≤ c.toNat ∧ c.toNat ≤ 57 := by simpa [isDigitChar] using hc
  have hspace : atolIsSpace c = false := by
    simp only [atolIsSpace, Bool.or_eq_false_iff, Bool.and_eq_false_iff,
      decide_eq_false_iff_not]
    omega
  have hminus : ¬(c = '-') := by
    intro he
    have h45 : ('-').toNat = 45 := rfl
    rw [he] at hcn; omega
  have hplus : ¬(c = '+') := by
    intro he
    have h43 : ('+').toNat = 43 := rfl
    rw [he] at hcn; omega
  have hparse : parseDigits (c :: cs) 0 = n := by rw [← hcons]; exact parseDigits_natDigits n
  rw [hcons]
  unfold atol
  rw [List.dropWhile_cons]
  simp [hspace, atolSigned, hminus, hplus, hparse]

/-- `atol` inverts the decimal rendering of any integer. -/
theorem atol_renderInt (l : Int) : atol (renderInt l) = l := by
  unfold renderInt
  by_cases h : l < 0
  · simp only [if_pos h]
    unfold atol
    rw [List.dropWhile_cons]
    have hsp : atolIsSpace '-' = false := rfl
    rw [hsp]
    simp only [Bool.false_eq_true, if_false]
    have hred : atolSigned ('-' :: natDigits (-l).toNat)
        = -(parseDigits (natDigits (-l).toNat) 0 : Int) := rfl
    rw [hred, parseDigits_natDigits, Int.toNat_of_nonneg (by omega : (0 : Int) ≤ -l)]
    omega
  · simp only [if_neg h]
    rw [atol_natDigits]
    omega

/-- The separator character is not a digit. -/
theorem isDigitChar_underscore : isDigitChar '_' = false := rfl

/-- The decimal rendering of an integer never contains the separator. -/
theorem sep_not_mem_renderInt (l : Int) : '_' ∉ renderInt l := by
  intro hmem
  unfold renderInt at hmem
  have hdig : ∀ n, '_' ∈ natDigits n → False := by
    intro n hn
    have := natDigits_digits n '_' hn
    simp [isDigitChar] at this
  by_cases h : l < 0
  · rw [if_pos h] at hmem
    rcases List.mem_cons.mp hmem with h1 | h1
    · exact absurd h1 (by decide)
    · exact hdig _ h1
  · rw [if_neg h] at hmem
    exact hdig _ hmem

/-- Splitting at the separator finds the first `'_'`. -/
theorem splitAtSep_append_sep (xs : List Char) (h : '_' ∉ xs) :
    ∀ ys, splitAtSep (xs ++ '_' :: ys) = some (xs, ys) := by
  induction xs with
  | nil => intro ys; simp [splitAtSep]
  | cons c cs ih =>
    intro ys
    have hc : ¬(c = '_') := fun he => h (by simp [he])
    have hcs : '_' ∉ cs := fun hm => h (by simp [hm])
    simp [splitAtSep, hc, ih hcs ys]

/-- A line without the separator does not split. -/
theorem splitAtSep_eq_none (cs : List Char) (h : '_' ∉ cs) : splitAtSep cs = none := by
  induction cs with
  | nil => rfl
  | cons c cs ih =>
    have hc : ¬(c = '_') := fun he => h (by simp [he])
    have hcs : '_' ∉ cs := fun hm => h (by simp [hm])
    simp [splitAtSep, hc, ih hcs]

/-- A line containing the separator always splits. -/
theorem splitAtSep_of_mem (cs : List Char) (h : '_' ∈ cs) :
    ∃ a b, splitAtSep cs = some (a, b) := by
  induction cs with
  | nil => cases h
  | cons c cs ih =>
    by_cases hc : c = '_'
    · exact ⟨[], cs, by simp [splitAtSep, hc]⟩
    · have hmem : '_' ∈ cs := by
        rcases List.mem_cons.mp h with h1 | h1
        · exact absurd h1.symm hc
        · exact h1
      obtain ⟨a, b, hab⟩ := ih hmem
      exact ⟨c :: a, b, by simp [splitAtSep, hc, hab]⟩

/-- The digit loop consumes nothing when the input does not start with a
digit. -/
theorem parseDigits_no_digit (cs : List Char) (acc : Nat)
    (h : beginsWithDigit cs = false) : parseDigits cs acc = acc := by
  cases cs with
  | nil => rfl
  | cons c rest =>
    have hc : isDigitChar c = false := h
    simp [parseDigits, hc]

/-- When no digit follows the optional sign, the signed stage returns 0. -/
theorem atolSigned_eq_zero (t : List Char)
    (h : beginsWithDigit (signSkip t) = false) : atolSigned t = 0 := by
  cases t with
  | nil => rfl
  | cons c rest =>
    by_cases hm : c = '-'
    · subst hm
      have h' : beginsWithDigit rest = false := h
      have hred : atolSigned ('-' :: rest) = -(parseDigits rest 0 : Int) := rfl
      rw [hred, parseDigits_no_digit rest 0 h']
      rfl
    · by_cases hp : c = '+'
      · subst hp
        have h' : beginsWithDigit rest = false := h
        have hred : atolSigned ('+' :: rest) = (parseDigits rest 0 : Int) := rfl
        rw [hred, parseDigits_no_digit rest 0 h']
        rfl
      · have h' : beginsWithDigit (c :: rest) = false := by
          simpa [signSkip, hm, hp] using h
        simp [atolSigned, hm, hp, parseDigits_no_digit (c :: rest) 0 h']

/-- `postDwellRender` skips a leading color effect. -/
theorem postDwellRender_setColor (r g b : Int) (rest : List Effect) :
    postDwellRender (Effect.setColor r g b :: rest) = postDwellRender rest := rfl

/-- `postDwellRender` skips a leading numeric-display effect. -/
theorem postDwellRender_show (n : Int) (lz : Bool) (len pos : Nat) (rest : List Effect) :
    postDwellRender (Effect.showNumberDec n lz len pos :: rest) = postDwellRender rest := rfl

/-- `postDwellRender` returns whatever follows the dwell. -/
theorem postDwellRender_delay (ms : Nat) (rest : List Effect) :
    postDwellRender (Effect.delayMs ms :: rest) = rest := rfl

/-- C1, counterexample: processing the short-date line `1_D110` from the
reset state stores `110` into `currentDateMMDD`, so the stored date does
NOT stay unchanged as the claim asserts (the assignment at source line 145
has no length guard; only the display path checks the length). -/
theorem c1_counterexample :
    (processLine initState ['1', '_', 'D', '1', '1', '0']).1.currentDateMMDD
      = ['1', '1', '0'] ∧
    initState.currentDateMMDD = ['0', '0', '0', '0'] ∧
    (['1', '1', '0'] : List Char) ≠ ['0', '0', '0', '0'] := by
  decide

/-- C1, amended: a `LevelUpdate` whose date payload is present but shorter
than 4 characters sets `currentAlertLevel` to the parsed level AND replaces
the stored `currentDateMMDD` with the short payload; only the display is
left showing its previous content, because the post-dwell date render is
empty for a short stored date. -/
theorem c1_short_date_stored (st : DeviceState) (l : Int) (d : List Char)
    (h : d.length < 4) :
    (applyCommand st (Command.levelUpdate l (some d))).1
      = { currentAlertLevel := l, currentDateMMDD := d } ∧
    postDwellRender (applyCommand st (Command.levelUpdate l (some d))).2 = [] := by
  refine ⟨rfl, ?_⟩
  show postDwellRender (Effect.setColor _ _ _ :: Effect.showNumberDec _ _ _ _
    :: Effect.delayMs 1500 :: displayDate d) = []
  rw [postDwellRender_setColor, postDwellRender_show, postDwellRender_delay]
  unfold displayDate
  rw [if_pos h]

/-- C1, witness for the amended theorem at the spec's own example. -/
theorem c1_witness :
    (applyCommand initState (Command.levelUpdate 1 (some ['1', '1', '0']))).1
      = { currentAlertLevel := 1, currentDateMMDD := ['1', '1', '0'] } ∧
    postDwellRender
      (applyCommand initState (Command.levelUpdate 1 (some ['1', '1', '0']))).2 = [] :=
  c1_short_date_stored initState 1 ['1', '1', '0'] (by decide)

/-- C2, counterexample: applying `OFF` from a state at level `LEVEL_NORMAL`
leaves the stored `currentAlertLevel` at `LEVEL_NORMAL`, not `LEVEL_OFF`:
the OFF branch (source lines 156-159) only drives the LED and display and
never assigns the global. -/
theorem c2_counterexample :
    (processLine ⟨LEVEL_NORMAL, ['1', '1', '0', '9']⟩ ['O', 'F', 'F']).1.currentAlertLevel
      = LEVEL_NORMAL ∧
    LEVEL_NORMAL ≠ LEVEL_OFF := by
  decide

/-- C2, amended: a clear line (prefix `OFF` or `off`, no separator) leaves
the whole stored state - both `currentAlertLevel` and `currentDateMMDD` -
unchanged; its only outputs are a display blank and the dark LED color. -/
theorem c2_clear_preserves_state (st : DeviceState) (line : List Char)
    (hsep : '_' ∉ line)
    (hoff : ['O', 'F', 'F'].isPrefixOf line = true ∨
      ['o', 'f', 'f'].isPrefixOf line = true) :
    processLine st line = (st, [Effect.displayClear, Effect.setColor 0 0 0]) := by
  have hor : (['O', 'F', 'F'].isPrefixOf line || ['o', 'f', 'f'].isPrefixOf line) = true := by
    rcases hoff with h | h <;> simp [h]
  have hp : parseLine line = Command.clearCommand := by
    unfold parseLine
    rw [splitAtSep_eq_none line hsep]
    simp [hor]
  unfold processLine
  rw [hp]
  rfl

/-- C2, witness for the amended theorem on the line `off`. -/
theorem c2_witness :
    processLine ⟨LEVEL_ALERT, ['1', '1', '0', '9']⟩ ['o', 'f', 'f']
      = (⟨LEVEL_ALERT, ['1', '1', '0', '9']⟩,
         [Effect.displayClear, Effect.setColor 0 0 0]) :=
  c2_clear_preserves_state ⟨LEVEL_ALERT, ['1', '1', '0', '9']⟩ ['o', 'f', 'f']
    (by decide) (Or.inr (by decide))

/-- C3, counterexample: `LEVEL_NOTICE` is a recognized non-off level, yet
the red component of its triple is 255, far above `MAX_BRIGHTNESS = 8`;
only the Normal branch uses the cap (source lines 56-60 vs 61-65). -/
theorem c3_counterexample :
    (updateAlertLed LEVEL_NOTICE).1 = 255 ∧
    ¬((255 : Int) ≤ MAX_BRIGHTNESS) ∧
    LEVEL_NOTICE ≠ LEVEL_OFF := by
  decide

/-- C3, amended: only the Normal level is brightness-capped - each component
of its triple is at most `MAX_BRIGHTNESS` - while Notice and Alert drive the
red channel at the full 255. -/
theorem c3_brightness :
    updateAlertLed LEVEL_NORMAL = (0, MAX_BRIGHTNESS, 0) ∧
    (updateAlertLed LEVEL_NORMAL).1 ≤ MAX_BRIGHTNESS ∧
    (updateAlertLed LEVEL_NORMAL).2.1 ≤ MAX_BRIGHTNESS ∧
    (updateAlertLed LEVEL_NORMAL).2.2 ≤ MAX_BRIGHTNESS ∧
    updateAlertLed LEVEL_NOTICE = (255, 100, 0) ∧
    updateAlertLed LEVEL_ALERT = (255, 0, 0) := by
  decide

/-- C4, counterexample: for `L = 100000` (outside the 16-bit `int` range)
and `D = 1109`, the line parses to level `-31072`, not `100000`: the `long`
returned by `toInt` is narrowed to the 16-bit `int level` at source line
140, so the program does not store `L` for out-of-range `L`. -/
theorem c4_counterexample :
    parseLine (renderInt 100000 ++ '_' :: 'D' :: ['1', '1', '0', '9'])
      = Command.levelUpdate (-31072) (some ['1', '1', '0', '9']) ∧
    ((-31072 : Int) ≠ 100000) := by
  decide

/-- C4, amended: for every integer `L` in the 16-bit `int` range
(`-32768 ≤ L < 32768`) and every 4-digit date code `D`, the line
`<decimal rendering of L>_D<D>` parses to a `LevelUpdate` with level `L`
and date payload `D`, and applying it stores both the level and the date;
out-of-range levels are stored 16-bit-wrapped instead. -/
theorem c4_level_and_date_update (L : Int) (D : List Char) (st : DeviceState)
    (hrange : -32768 ≤ L ∧ L < 32768)
    (_hlen : D.length = 4) (_hdig : ∀ c ∈ D, isDigitChar c = true) :
    parseLine (renderInt L ++ '_' :: 'D' :: D) = Command.levelUpdate L (some D) ∧
    (processLine st (renderInt L ++ '_' :: 'D' :: D)).1
      = { currentAlertLevel := L, currentDateMMDD := D } := by
  have hw : wrap16 L = L := by
    unfold wrap16
    omega
  have hp : parseLine (renderInt L ++ '_' :: 'D' :: D)
      = Command.levelUpdate L (some D) := by
    unfold parseLine
    rw [splitAtSep_append_sep (renderInt L) (sep_not_mem_renderInt L) ('D' :: D)]
    simp [atol_renderInt, dateOfDatePart, hw]
  refine ⟨hp, ?_⟩
  unfold processLine
  rw [hp]
  rfl

/-- C4, witness: the amended theorem applied at `L = -3`, `D = 1109`. -/
theorem c4_witness :
    parseLine (renderInt (-3) ++ '_' :: 'D' :: ['1', '1', '0', '9'])
      = Command.levelUpdate (-3) (some ['1', '1', '0', '9']) ∧
    (processLine initState (renderInt (-3) ++ '_' :: 'D' :: ['1', '1', '0', '9'])).1
      = { currentAlertLevel := -3, currentDateMMDD := ['1', '1', '0', '9'] } :=
  c4_level_and_date_update (-3) ['1', '1', '0', '9'] initState (by decide)
    (by decide) (by decide)

/-- C5, confirmed: a line without the separator and without an `OFF`/`off`
prefix only prints the diagnostic over serial; the stored state is returned
unchanged and no LED or display effect is emitted. -/
theorem c5_unrecognized_no_mutation (st : DeviceState) (line : List Char)
    (hsep : '_' ∉ line)
    (h1 : ['O', 'F', 'F'].isPrefixOf line = false)
    (h2 : ['o', 'f', 'f'].isPrefixOf line = false) :
    processLine st line = (st, [Effect.serialPrintln diagnosticMessage]) := by
  have hp : parseLine line = Command.unrecognized := by
    unfold parseLine
    rw [splitAtSep_eq_none line hsep]
    simp [h1, h2]
  unfold processLine
  rw [hp]
  rfl

/-- C5, witness at the spec's `garbage` scenario. -/
theorem c5_witness :
    processLine initState ['g', 'a', 'r', 'b', 'a', 'g', 'e']
      = (initState, [Effect.serialPrintln diagnosticMessage]) :=
  c5_unrecognized_no_mutation initState ['g', 'a', 'r', 'b', 'a', 'g', 'e']
    (by decide) (by decide) (by decide)

/-- C6, confirmed: from any state, the line `1_D1109` stores level 1 and
date `1109`, emits the Normal green color `(0, MAX_BRIGHTNESS, 0)`, shows
the level on the 4-digit display (`showNumberDec(1, true, 4, 0)`, which the
driver renders right-aligned with leading zeros as `0001`), dwells 1500 ms,
and then renders the stored date digits `1109`. -/
theorem c6_scenario_1_d1109 (st : DeviceState) :
    processLine st ['1', '_', 'D', '1', '1', '0', '9']
      = ({ currentAlertLevel := 1, currentDateMMDD := ['1', '1', '0', '9'] },
         [Effect.setColor 0 MAX_BRIGHTNESS 0,
          Effect.showNumberDec 1 true 4 0,
          Effect.delayMs 1500,
          Effect.setSegments [1, 1, 0, 9]]) ∧
    showNumberDecDigits 1 = [0, 0, 0, 1] ∧
    updateAlertLed LEVEL_NORMAL = (0, MAX_BRIGHTNESS, 0) ∧
    dateDigits ['1', '1', '0', '9'] = [1, 1, 0, 9] := by
  exact ⟨rfl, rfl, rfl, rfl⟩

/-- C7, counterexample: the line `-5_x` has a level part `-5` that does not
begin with a digit, yet it parses to level `-5`, not `0`: `toInt`/`atol`
accepts an optional sign before the digit run. -/
theorem c7_counterexample :
    parseLine ['-', '5', '_', 'x'] = Command.levelUpdate (-5) none ∧
    beginsWithDigit ['-', '5'] = false ∧
    ((-5 : Int) ≠ 0) := by
  decide

/-- C7, amended: level parsing is total (every line containing `'_'` parses
to some `LevelUpdate`), and the parsed level is 0 exactly when, after
skipping optional leading whitespace and at most one sign character, the
level part does not begin with a digit. -/
theorem c7_default_zero (cs line : List Char)
    (h : beginsWithDigit (afterSignSkip cs) = false)
    (hmem : '_' ∈ line) :
    atol cs = 0 ∧ ∃ l d, parseLine line = Command.levelUpdate l d := by
  constructor
  · exact atolSigned_eq_zero (cs.dropWhile atolIsSpace) h
  · obtain ⟨a, b, hab⟩ := splitAtSep_of_mem line hmem
    refine ⟨wrap16 (atol a), dateOfDatePart b, ?_⟩
    unfold parseLine
    rw [hab]

/-- C7, witness: a non-numeric level part parses to 0 and a separator line
parses to a level update. -/
theorem c7_witness :
    atol ['a', 'b'] = 0 ∧
    ∃ l d, parseLine ['-', '5', '_', 'x'] = Command.levelUpdate l d :=
  c7_default_zero ['a', 'b'] ['-', '5', '_', 'x'] (by decide) (by decide)

/-- C8, counterexample: from a state whose stored date is the 3-character
string `110` (reachable, e.g. via the line `1_D110`), a clear followed by a
date-less level update renders NO date once the dwell ends - the trace of
the second command stops at the dwell, so nothing equal to the pre-clear
stored date is ever rendered. -/
theorem c8_counterexample :
    (processLine (processLine ⟨LEVEL_NORMAL, ['1', '1', '0']⟩ ['O', 'F', 'F']).1
        ['2', '_', 'x']).2
      = [Effect.setColor 255 100 0, Effect.showNumberDec 2 true 4 0,
         Effect.delayMs 1500] ∧
    postDwellRender
      (processLine (processLine ⟨LEVEL_NORMAL, ['1', '1', '0']⟩ ['O', 'F', 'F']).1
        ['2', '_', 'x']).2 = [] := by
  decide

/-- C8, amended: for every device state whose stored `currentDateMMDD` is
exactly 4 characters, applying a clear (`OFF`) and then any line parsing to
a date-less `LevelUpdate` renders, once the dwell of that update ends,
precisely the 4-digit date display of the `currentDateMMDD` stored before
the clear. -/
theorem c8_date_retention (st : DeviceState) (line2 : List Char) (l : Int)
    (hlen : st.currentDateMMDD.length = 4)
    (hparse : parseLine line2 = Command.levelUpdate l none) :
    postDwellRender (processLine (processLine st ['O', 'F', 'F']).1 line2).2
      = [Effect.setSegments (dateDigits st.currentDateMMDD)] := by
  have h1 : (processLine st ['O', 'F', 'F']).1 = st := rfl
  rw [h1]
  unfold processLine
  rw [hparse]
  show postDwellRender (Effect.setColor _ _ _ :: Effect.showNumberDec _ _ _ _
    :: Effect.delayMs 1500 :: displayDate st.currentDateMMDD) = _
  rw [postDwellRender_setColor, postDwellRender_show, postDwellRender_delay]
  unfold displayDate
  rw [if_neg (by omega)]

/-- C8, witness: concrete retention of the pre-clear date `1109` across
`OFF` followed by the date-less update `2_x`. -/
theorem c8_witness :
    postDwellRender
      (processLine (processLine ⟨LEVEL_NORMAL, ['1', '1', '0', '9']⟩ ['O', 'F', 'F']).1
        ['2', '_', 'x']).2
      = [Effect.setSegments (dateDigits ['1', '1', '0', '9'])] :=
  c8_date_retention ⟨LEVEL_NORMAL, ['1', '1', '0', '9']⟩ ['2', '_', 'x'] 2
    (by decide) (by decide)

/-- C9, confirmed: any line containing `'_'` is handled by the level-update
branch (the separator check precedes the `OFF` check), and in particular
`OFF_D1109` parses with level 0 (its level part `OFF` has no digits) and
date payload `1109`, which are both stored. -/
theorem c9_separator_beats_off (line : List Char) (st : DeviceState)
    (h : '_' ∈ line) :
    (∃ l d, parseLine line = Command.levelUpdate l d) ∧
    parseLine ['O', 'F', 'F', '_', 'D', '1', '1', '0', '9']
      = Command.levelUpdate 0 (some ['1', '1', '0', '9']) ∧
    (processLine st ['O', 'F', 'F', '_', 'D', '1', '1', '0', '9']).1
      = { currentAlertLevel := 0, currentDateMMDD := ['1', '1', '0', '9'] } := by
  refine ⟨?_, rfl, rfl⟩
  obtain ⟨a, b, hab⟩ := splitAtSep_of_mem line h
  refine ⟨wrap16 (atol a), dateOfDatePart b, ?_⟩
  unfold parseLine
  rw [hab]

/-- C9, witness at the line `OFF_D1109` itself. -/
theorem c9_witness :
    (∃ l d, parseLine ['O', 'F', 'F', '_', 'D', '1', '1', '0', '9']
      = Command.levelUpdate l d) ∧
    parseLine ['O', 'F', 'F', '_', 'D', '1', '1', '0', '9']
      = Command.levelUpdate 0 (some ['1', '1', '0', '9']) ∧
    (processLine initState ['O', 'F', 'F', '_', 'D', '1', '1', '0', '9']).1
      = { currentAlertLevel := 0, currentDateMMDD := ['1', '1', '0', '9'] } :=
  c9_separator_beats_off ['O', 'F', 'F', '_', 'D', '1', '1', '0', '9'] initState
    (by decide)

/-- C10, confirmed: `displayDate` writes nothing for a stored date shorter
than 4 characters, and consequently the trace of the short-date update
`1_D110` ends at the dwell - the transient level rendering is never
replaced by a date render. -/
theorem c10_short_date_no_render (s : List Char) (st : DeviceState)
    (h : s.length < 4) :
    displayDate s = [] ∧
    (processLine st ['1', '_', 'D', '1', '1', '0']).2
      = [Effect.setColor 0 MAX_BRIGHTNESS 0, Effect.showNumberDec 1 true 4 0,
         Effect.delayMs 1500] := by
  constructor
  · unfold displayDate
    rw [if_pos h]
  · rfl

/-- C10, witness at the stored date `110`. -/
theorem c10_witness :
    displayDate ['1', '1', '0'] = [] ∧
    (processLine initState ['1', '_', 'D', '1', '1', '0']).2
      = [Effect.setColor 0 MAX_BRIGHTNESS 0, Effect.showNumberDec 1 true 4 0,
         Effect.delayMs 1500] :=
  c10_short_date_no_render ['1', '1', '0'] initState (by decide)
